import Mathlib

/-!
Verification development for the Time-Table-Scheduler repository.

The development shallowly embeds the parts of the code base the claims
touch:

* `app/services/constraint_builder.py` — the CP-SAT constraint families,
  embedded as propositions over a Boolean assignment of the decision
  variables;
* `app/services/college_scheduler.py` — `CollegeScheduler.allocate`
  together with its greedy fallback, embedded as executable functions
  (the external CP-SAT solver is modelled as an oracle that may return a
  satisfying assignment of the constraint families, or nothing);
* `app/services/validators.py` — `ConstraintValidator` queries over a
  list of timetable entries (the SQLAlchemy table);
* `app/routes/timetables.py` — the `activate_version` and `swap_entries`
  handlers;
* `app/services/scheduling_engine.py` — the `time_to_minutes`,
  `minutes_to_time` and `add_minutes` helpers over character lists.

Machine integers are `Nat` (Python integers are unbounded, and all the
embedded quantities are non-negative); fallible operations return
`Option`.
-/

/- ────────────────────────────────────────────────────────────────────
   Part 1: scheduler core (`college_scheduler.py`, `constraint_builder.py`)
   ──────────────────────────────────────────────────────────────────── -/

/-- `DAYS` from `constraint_builder.py`: Monday through Saturday. -/
def DAYS : List String :=
  ["Monday", "Tuesday", "Wednesday", "Thursday", "Friday", "Saturday"]

/-- `PERIODS = list(range(1, 8))` from `constraint_builder.py`. -/
def PERIODS : List Nat := [1, 2, 3, 4, 5, 6, 7]

/-- One assignment dict: `{teacher_name, subject_name, branch, year,
section, lectures_per_week}` (the `section` key defaulting to "A" is
resolved at construction). -/
structure Asgn where
  teacher_name : String
  subject_name : String
  branch : String
  year : String
  section_ : String
  lectures_per_week : Nat
deriving DecidableEq, Repr

/-- First maximal run of decimal digits in a character list; empty when
no digit occurs.  Mirrors `re.search(r'(\d+)', s)` in `_norm_year`. -/
def firstDigitRun : List Char → List Char
  | [] => []
  | c :: rest =>
      if c.isDigit then (c :: rest).takeWhile Char.isDigit
      else firstDigitRun rest

/-- Value of a digit string, as computed by Python `int` on it. -/
def digitsToNat (cs : List Char) : Nat :=
  cs.foldl (fun n c => n * 10 + (c.toNat - 48)) 0

/-- `_norm_year` from `college_scheduler.py`: extract the first digit
run; when the string is empty return it unchanged; when no digit occurs
return the stripped string. -/
def norm_year (s : String) : String :=
  if s = "" then s
  else
    match firstDigitRun s.toList with
    | [] => s.trim
    | run => String.mk run

/-- The `year` field of an output slot: `int(_norm_year(yr))`, falling
back to the raw string when the conversion fails (no digit present). -/
inductive YearVal where
  | num (n : Nat)
  | raw (s : String)
deriving DecidableEq, Repr

/-- `int(_norm_year(y))` with the `except` fallback to the original
value. -/
def yearIntOf (y : String) : YearVal :=
  match firstDigitRun y.toList with
  | [] => .raw y
  | run => .num (digitsToNat run)

/-- `str(sl["year"])` on a slot year. -/
def yearValStr : YearVal → String
  | .num n => toString n
  | .raw s => s

/-- Does `needle` occur as a contiguous run at the head of `haystack`? -/
def headMatches : List Char → List Char → Bool
  | [], _ => true
  | _ :: _, [] => false
  | p :: ps, c :: cs => p == c && headMatches ps cs

/-- Python `needle in haystack` on strings, over character lists. -/
def hasSubstr (haystack needle : List Char) : Bool :=
  match haystack with
  | [] => needle.isEmpty
  | _ :: rest => headMatches needle haystack || hasSubstr rest needle

/-- The slot `type` classification shared by the CP-SAT extraction and
the greedy fallback: LAB when the subject is a lab subject, otherwise by
keyword in the lowercased subject name, defaulting to LECTURE. -/
def slotTypeOf (subject : String) (lab_subjects : List String) : String :=
  if subject ∈ lab_subjects then "LAB"
  else if hasSubstr subject.toLower.toList ("tutorial".toList) then "TUTORIAL"
  else if hasSubstr subject.toLower.toList ("seminar".toList) then "SEMINAR"
  else "LECTURE"

/-- One flat output slot (guide §4 fields). -/
structure Slot where
  day : String
  period : Nat
  branch : String
  year : YearVal
  section_ : String
  subject : String
  faculty : String
  room : String
  type : String
deriving DecidableEq, Repr

/-- Result of `allocate` / `_greedy_fallback`. -/
structure AllocOutput where
  timetable : List Slot
  unallocated : List String
deriving DecidableEq, Repr

/-- Key of one CP-SAT decision variable:
`(teacher, subject, branch, year, section, day, period, room)`. -/
structure VarKey where
  teacher : String
  subject : String
  branch : String
  year : String
  section_ : String
  day : String
  period : Nat
  room : String
deriving DecidableEq, Repr

/-- Insertion-ordered key set of a Python dict: keep the first occurrence
of each key, drop later duplicates. -/
def pyDictKeys (ks : List VarKey) : List VarKey :=
  ks.foldl (fun acc k => if k ∈ acc then acc else acc ++ [k]) []

/-- The keys of the decision-variable dict `x` built in
`CollegeScheduler.allocate`: one per assignment × day × period × room,
in insertion order, deduplicated as a dict would. -/
def varKeys (assignments : List Asgn) (rooms : List String) : List VarKey :=
  pyDictKeys <| assignments.flatMap fun a =>
    DAYS.flatMap fun d =>
      PERIODS.flatMap fun p =>
        rooms.map fun r =>
          ⟨a.teacher_name, a.subject_name, a.branch, a.year, a.section_, d, p, r⟩

/-- Number of variables of `ks` set to true by the assignment `f`. -/
def countTrue (f : VarKey → Bool) (ks : List VarKey) : Nat :=
  (ks.filter f).length

/-- `ConstraintBuilder._teacher_uniqueness`: for every day, period and
teacher of the `teachers` list, at most one matching variable is 1. -/
def TeacherUniqueness (keys : List VarKey) (teachers : List String)
    (f : VarKey → Bool) : Prop :=
  ∀ d ∈ DAYS, ∀ p ∈ PERIODS, ∀ t ∈ teachers,
    countTrue f (keys.filter fun k =>
      k.teacher == t && k.day == d && k.period == p) ≤ 1

/-- `ConstraintBuilder._room_availability`: for every day, period and
room, at most one matching variable is 1. -/
def RoomAvailability (keys : List VarKey) (rooms : List String)
    (f : VarKey → Bool) : Prop :=
  ∀ d ∈ DAYS, ∀ p ∈ PERIODS, ∀ r ∈ rooms,
    countTrue f (keys.filter fun k =>
      k.room == r && k.day == d && k.period == p) ≤ 1

/-- `ConstraintBuilder._lecture_count`: each assignment receives exactly
`lectures_per_week` slots (constraint emitted only when at least one
variable matches). -/
def LectureCount (keys : List VarKey) (assignments : List Asgn)
    (f : VarKey → Bool) : Prop :=
  ∀ a ∈ assignments,
    (keys.filter fun k =>
        k.teacher == a.teacher_name && k.subject == a.subject_name &&
        k.branch == a.branch && k.year == a.year && k.section_ == a.section_) ≠ [] →
    countTrue f (keys.filter fun k =>
        k.teacher == a.teacher_name && k.subject == a.subject_name &&
        k.branch == a.branch && k.year == a.year && k.section_ == a.section_)
      = a.lectures_per_week

/-- `ConstraintBuilder._lab_no_early_periods`: every variable of a lab
subject at period 1 or 2 is 0. -/
def LabNoEarlyPeriods (keys : List VarKey) (lab_subjects : List String)
    (f : VarKey → Bool) : Prop :=
  ∀ k ∈ keys, k.subject ∈ lab_subjects → (k.period = 1 ∨ k.period = 2) →
    f k = false

/-- `ConstraintBuilder._lab_two_hour_blocks`: for a lab-subject variable
at period `p ≤ 6` whose successor key exists, the two variables are
equal. -/
def LabTwoHourBlocks (keys : List VarKey) (lab_subjects : List String)
    (f : VarKey → Bool) : Prop :=
  ∀ k ∈ keys, k.subject ∈ lab_subjects → k.period ≤ 6 →
    { k with period := k.period + 1 } ∈ keys →
    f { k with period := k.period + 1 } = f k

/-- `ConstraintBuilder._thursday_club_rule`: every variable on Thursday
at period 1 or 7 is 0. -/
def ThursdayClubRule (keys : List VarKey) (f : VarKey → Bool) : Prop :=
  ∀ k ∈ keys, k.day = "Thursday" → (k.period = 1 ∨ k.period = 7) →
    f k = false

/-- `ConstraintBuilder._first_slot_priority`: for every day and every
cohort of the assignments, when period-1 variables exist at least one of
them is 1. -/
def FirstSlotPriority (keys : List VarKey) (assignments : List Asgn)
    (f : VarKey → Bool) : Prop :=
  ∀ d ∈ DAYS, ∀ a ∈ assignments,
    (keys.filter fun k =>
        k.branch == a.branch && k.year == a.year && k.section_ == a.section_ &&
        k.day == d && k.period == 1) ≠ [] →
    1 ≤ countTrue f (keys.filter fun k =>
        k.branch == a.branch && k.year == a.year && k.section_ == a.section_ &&
        k.day == d && k.period == 1)

/-- `ConstraintBuilder.apply_all`: conjunction of the seven constraint
families (`_lab_no_early_periods` and `_lab_two_hour_blocks` are both
included). -/
def SatisfiesConstraints (assignments : List Asgn) (teachers : List String)
    (rooms : List String) (lab_subjects : List String)
    (f : VarKey → Bool) : Prop :=
  TeacherUniqueness (varKeys assignments rooms) teachers f ∧
  RoomAvailability (varKeys assignments rooms) rooms f ∧
  LectureCount (varKeys assignments rooms) assignments f ∧
  LabNoEarlyPeriods (varKeys assignments rooms) lab_subjects f ∧
  LabTwoHourBlocks (varKeys assignments rooms) lab_subjects f ∧
  ThursdayClubRule (varKeys assignments rooms) f ∧
  FirstSlotPriority (varKeys assignments rooms) assignments f

/-- Count-map key of `scheduled_counts`:
`(teacher, subject, branch, _norm_year(year), section)`. -/
structure CountKey where
  teacher : String
  subject : String
  branch : String
  year : String
  section_ : String
deriving DecidableEq, Repr

/-- `scheduled_counts[key] = scheduled_counts.get(key, 0) + 1`. -/
def bumpCount (m : List (CountKey × Nat)) (k : CountKey) : List (CountKey × Nat) :=
  match m with
  | [] => [(k, 1)]
  | (k0, n) :: rest =>
      if k0 = k then (k0, n + 1) :: rest else (k0, n) :: bumpCount rest k

/-- `scheduled_counts.get(key, 0)`. -/
def getCount (m : List (CountKey × Nat)) (k : CountKey) : Nat :=
  match m.lookup k with
  | some n => n
  | none => 0

/-- Mutable state of `_greedy_fallback`: the slots placed so far, the
`(day, period, room)` and `(day, period, teacher)` used sets, the
scheduled counts, and the three rolling indices. -/
structure GreedyState where
  result : List Slot
  roomUsed : List (String × Nat × String)
  teacherUsed : List (String × Nat × String)
  counts : List (CountKey × Nat)
  roomIdx : Nat
  dayIdx : Nat
  periodIdx : Nat
deriving Repr

/-- Initial state of `_greedy_fallback`. -/
def initGreedyState : GreedyState :=
  ⟨[], [], [], [], 0, 0, 0⟩

/-- One assignment's `while remaining > 0 and loops < max_loops` loop
from `_greedy_fallback`, with `fuel` the number of loop iterations still
allowed (`max_loops - loops`).  Thursday periods 1 and 7 and, for lab
subjects, periods 1 and 2 are skipped without touching the rolling
day/room indices; otherwise a slot is placed when its room and teacher
are both unused, and the trailing index rollover runs. -/
def greedyLoop (lab_subjects rooms : List String) (a : Asgn) :
    Nat → Nat → GreedyState → GreedyState
  | 0, _, st => st
  | Nat.succ fuelPred, remaining, st =>
      match remaining with
      | 0 => st
      | Nat.succ remPred =>
        let day := DAYS.getD (st.dayIdx % DAYS.length) ""
        let period := PERIODS.getD (st.periodIdx % PERIODS.length) 0
        let room := if rooms.isEmpty then "TBD"
                    else rooms.getD (st.roomIdx % rooms.length) "TBD"
        let teacher := a.teacher_name
        let subject := a.subject_name
        if day = "Thursday" ∧ (period = 1 ∨ period = 7) then
          greedyLoop lab_subjects rooms a fuelPred remaining
            { st with periodIdx := st.periodIdx + 1 }
        else if subject ∈ lab_subjects ∧ (period = 1 ∨ period = 2) then
          greedyLoop lab_subjects rooms a fuelPred remaining
            { st with periodIdx := st.periodIdx + 1 }
        else
          let slotOk := (day, period, room) ∉ st.roomUsed ∧
                        (day, period, teacher) ∉ st.teacherUsed
          let st1 :=
            if slotOk then
              let slot : Slot :=
                ⟨day, period, a.branch, yearIntOf a.year, a.section_,
                 subject, teacher, room, slotTypeOf subject lab_subjects⟩
              let ck : CountKey :=
                ⟨teacher, subject, a.branch, norm_year a.year, a.section_⟩
              { st with
                result := st.result ++ [slot],
                roomUsed := st.roomUsed ++ [(day, period, room)],
                teacherUsed := st.teacherUsed ++ [(day, period, teacher)],
                counts := bumpCount st.counts ck }
            else st
          let remaining1 := if slotOk then remPred else remaining
          let st2 :=
            if (st1.periodIdx + 1) % PERIODS.length = 0 then
              { st1 with periodIdx := st1.periodIdx + 1,
                         dayIdx := st1.dayIdx + 1,
                         roomIdx := st1.roomIdx + 1 }
            else { st1 with periodIdx := st1.periodIdx + 1 }
          greedyLoop lab_subjects rooms a fuelPred remaining1 st2

/-- `DAYS.index(day)` guarded by `if day in DAYS else 99`. -/
def dayIndex (d : String) : Nat :=
  match DAYS.findIdx? (fun x => x == d) with
  | some i => i
  | none => 99

/-- The sort key order of `result.sort(key=...)`:
lexicographic on `(DAYS.index(day), period)`. -/
def slotLe (s1 s2 : Slot) : Bool :=
  decide (dayIndex s1.day < dayIndex s2.day ∨
    (dayIndex s1.day = dayIndex s2.day ∧ s1.period ≤ s2.period))

/-- Stable insertion of a slot before the first element not below it. -/
def insertSortedSlot (x : Slot) : List Slot → List Slot
  | [] => [x]
  | y :: ys => if slotLe x y then x :: y :: ys else y :: insertSortedSlot x ys

/-- The final `result.sort(key=...)`: a stable sort by
`(DAYS.index(day), period)` — the stable sort by a fixed key is unique,
so insertion sort reproduces CPython's `list.sort` output exactly. -/
def sortSlots (l : List Slot) : List Slot :=
  l.foldr insertSortedSlot []

/-- Python `list(set(xs))` on strings: the duplicates are removed; CPython
iterates the set in an unspecified, hash-dependent order, modelled here by
the first-occurrence order. -/
def pySetList (xs : List String) : List String :=
  xs.foldl (fun acc s => if s ∈ acc then acc else acc ++ [s]) []

/-- The unallocated sweep shared by both paths of `allocate`: subjects
whose scheduled count is below `lectures_per_week`. -/
def unallocatedOf (assignments : List Asgn) (counts : List (CountKey × Nat)) :
    List String :=
  pySetList <| assignments.foldl
    (fun acc a =>
      if getCount counts
            ⟨a.teacher_name, a.subject_name, a.branch, norm_year a.year, a.section_⟩
          < a.lectures_per_week
      then acc ++ [a.subject_name] else acc)
    []

/-- `CollegeScheduler._greedy_fallback`. -/
def greedy_fallback (assignments : List Asgn) (rooms : List String)
    (lab_subjects : List String) : AllocOutput :=
  let maxLoops := DAYS.length * PERIODS.length * max 1 rooms.length
  let final := assignments.foldl
    (fun st a => greedyLoop lab_subjects rooms a maxLoops a.lectures_per_week st)
    initGreedyState
  ⟨sortSlots final.result, unallocatedOf assignments final.counts⟩

/-- Slot built from a CP-SAT decision variable that the solution sets
to 1. -/
def slotOfKey (lab_subjects : List String) (k : VarKey) : Slot :=
  ⟨k.day, k.period, k.branch, yearIntOf k.year, k.section_,
   k.subject, k.teacher, k.room, slotTypeOf k.subject lab_subjects⟩

/-- The CP-SAT solution path of `allocate`: slots of the variables set
to 1, sorted, with the unallocated sweep over the resulting counts. -/
def cpOutput (assignments : List Asgn) (rooms : List String)
    (lab_subjects : List String) (f : VarKey → Bool) : AllocOutput :=
  let result := ((varKeys assignments rooms).filter f).map (slotOfKey lab_subjects)
  let counts := result.foldl
    (fun m sl => bumpCount m ⟨sl.faculty, sl.subject, sl.branch,
                              yearValStr sl.year, sl.section_⟩)
    []
  ⟨sortSlots result, unallocatedOf assignments counts⟩

/-- The optional branch/year/section filters applied at the top of
`allocate` (`None` models a falsy filter argument). -/
def applyFilters (assignments : List Asgn)
    (branch_filter year_filter section_filter : Option String) : List Asgn :=
  let a1 := match branch_filter with
    | some b => assignments.filter fun a => a.branch == b
    | none => assignments
  let a2 := match year_filter with
    | some y => a1.filter fun a => norm_year a.year == norm_year y
    | none => a1
  match section_filter with
  | some s => a2.filter fun a => a.section_ == s
  | none => a2

/-- Input record of `CollegeScheduler.allocate` (rooms are the extracted
`room_name` strings; `subjects`, `cs_split_subjects` and the sorted
branch/year/section lists are carried by the builder but used by no
constraint). -/
structure AllocInput where
  assignments : List Asgn
  teachers : List String
  rooms : List String
  lab_subjects : List String
  branch_filter : Option String := none
  year_filter : Option String := none
  section_filter : Option String := none

/-- `CollegeScheduler.allocate`, with the CP-SAT solve modelled by the
oracle `sol`: `some f` stands for an OPTIMAL/FEASIBLE outcome with
solution `f`, `none` for any other status, which takes the greedy
fallback. -/
def allocate (inp : AllocInput) (sol : Option (VarKey → Bool)) : AllocOutput :=
  let asg := applyFilters inp.assignments inp.branch_filter inp.year_filter
    inp.section_filter
  if asg.isEmpty then ⟨[], []⟩
  else
    match sol with
    | some f => cpOutput asg inp.rooms inp.lab_subjects f
    | none => greedy_fallback asg inp.rooms inp.lab_subjects

/-- Soundness of the solver oracle: an OPTIMAL/FEASIBLE outcome really
satisfies every constraint `ConstraintBuilder.apply_all` put on the
model. -/
def SolverSound (inp : AllocInput) (sol : Option (VarKey → Bool)) : Prop :=
  ∀ f, sol = some f →
    SatisfiesConstraints
      (applyFilters inp.assignments inp.branch_filter inp.year_filter
        inp.section_filter)
      inp.teachers inp.rooms inp.lab_subjects f

/-- Decisiveness of the solver oracle on this program's models: a
non-feasible status is returned only when no satisfying assignment
exists.  (CP-SAT decides the empty model instantly; every non-empty
model of this program is infeasible, see `cpModel_infeasible`.) -/
def SolverDecisive (inp : AllocInput) (sol : Option (VarKey → Bool)) : Prop :=
  sol = none →
    ¬ ∃ f, SatisfiesConstraints
      (applyFilters inp.assignments inp.branch_filter inp.year_filter
        inp.section_filter)
      inp.teachers inp.rooms inp.lab_subjects f

/- ────────────────────────────────────────────────────────────────────
   Part 2: constraint validator (`app/services/validators.py`)
   ──────────────────────────────────────────────────────────────────── -/

/-- `DayOfWeek` enum from `app/models/models.py`. -/
inductive DayOfWeek where
  | MONDAY | TUESDAY | WEDNESDAY | THURSDAY | FRIDAY | SATURDAY
deriving DecidableEq, Repr

/-- `DayOfWeek.value`. -/
def DayOfWeek.value : DayOfWeek → String
  | .MONDAY => "MONDAY"
  | .TUESDAY => "TUESDAY"
  | .WEDNESDAY => "WEDNESDAY"
  | .THURSDAY => "THURSDAY"
  | .FRIDAY => "FRIDAY"
  | .SATURDAY => "SATURDAY"

/-- `SessionType` enum from `app/models/models.py`. -/
inductive SessionType where
  | LECTURE | TUTORIAL | LAB | SEMINAR | CLUB | BREAK | EXTRACURRICULAR
deriving DecidableEq, Repr

/-- A `timetable_entries` row (`TimetableEntry`).  Nullable columns are
`Option`. -/
structure Entry where
  id : Nat
  day_of_week : DayOfWeek
  period_number : Nat
  version_id : Option Nat
  branch_id : Nat
  year_section_id : Nat
  subject_id : Option Nat
  faculty_id : Option Nat
  classroom_id : Option Nat
  labroom_id : Option Nat
  session_type : SessionType
  is_locked : Bool
deriving DecidableEq, Repr

/-- The whole `timetable_entries` table the validator queries (its
`db.query(TimetableEntry)` has no version filter). -/
abbrev Db := List Entry

/-- `if exclude_entry_id: query = query.filter(id != ...)`; the filter is
skipped for a falsy (absent or zero) exclude id. -/
def applyExclude (excl : Option Nat) (es : List Entry) : List Entry :=
  match excl with
  | none => es
  | some eid => if eid = 0 then es else es.filter fun e => e.id != eid

/-- `ConstraintValidator.is_faculty_available`. -/
def is_faculty_available (db : Db) (faculty_id : Nat) (day : DayOfWeek)
    (period : Nat) (exclude_entry_id : Option Nat) : Bool :=
  (applyExclude exclude_entry_id (db.filter fun e =>
    e.faculty_id == some faculty_id && e.day_of_week == day &&
    e.period_number == period)).isEmpty

/-- `ConstraintValidator.is_classroom_available` (CLUB entries ignored). -/
def is_classroom_available (db : Db) (classroom_id : Nat) (day : DayOfWeek)
    (period : Nat) (exclude_entry_id : Option Nat) : Bool :=
  (applyExclude exclude_entry_id (db.filter fun e =>
    e.classroom_id == some classroom_id && e.day_of_week == day &&
    e.period_number == period && e.session_type != SessionType.CLUB)).isEmpty

/-- `ConstraintValidator.is_labroom_available`. -/
def is_labroom_available (db : Db) (labroom_id : Nat) (day : DayOfWeek)
    (period : Nat) (exclude_entry_id : Option Nat) : Bool :=
  (applyExclude exclude_entry_id (db.filter fun e =>
    e.labroom_id == some labroom_id && e.day_of_week == day &&
    e.period_number == period)).isEmpty

/-- `ConstraintValidator.is_branch_slot_free`. -/
def is_branch_slot_free (db : Db) (branch_id year_section_id : Nat)
    (day : DayOfWeek) (period : Nat) (exclude_entry_id : Option Nat) : Bool :=
  (applyExclude exclude_entry_id (db.filter fun e =>
    e.branch_id == branch_id && e.year_section_id == year_section_id &&
    e.day_of_week == day && e.period_number == period)).isEmpty

/-- `ConstraintValidator.has_lab_on_day`. -/
def has_lab_on_day (db : Db) (branch_id year_section_id : Nat)
    (day : DayOfWeek) : Bool :=
  db.any fun e =>
    e.branch_id == branch_id && e.year_section_id == year_section_id &&
    e.day_of_week == day && e.session_type == SessionType.LAB

/-- `TUTORIAL_ALLOWED_PERIODS`. -/
def TUTORIAL_ALLOWED_PERIODS : List Nat := [3, 4, 5, 6]

/-- `ConstraintValidator.can_schedule_lecture_or_tutorial`, returning
`(is_valid, error_message)`. -/
def can_schedule_lecture_or_tutorial (db : Db)
    (branch_id year_section_id faculty_id classroom_id : Nat)
    (day : DayOfWeek) (period : Nat) (session_type : Option SessionType)
    (exclude_entry_id : Option Nat) : Bool × Option String :=
  if session_type = some SessionType.TUTORIAL ∧
      period ∉ TUTORIAL_ALLOWED_PERIODS then
    (false, some ("Tutorial not allowed in P" ++ toString period ++
      " — tutorials are only permitted in P3, P4, P5, P6"))
  else if session_type = some SessionType.TUTORIAL ∧
      day = DayOfWeek.THURSDAY ∧ period = 7 then
    (false, some "Tutorial not allowed in Thursday P7 (club slot)")
  else if !is_branch_slot_free db branch_id year_section_id day period
      exclude_entry_id then
    (false, some ("Branch slot occupied on " ++ day.value ++ " P" ++
      toString period))
  else if !is_faculty_available db faculty_id day period exclude_entry_id then
    (false, some ("Faculty not available on " ++ day.value ++ " P" ++
      toString period))
  else if !is_classroom_available db classroom_id day period
      exclude_entry_id then
    (false, some ("Classroom not available on " ++ day.value ++ " P" ++
      toString period))
  else
    (true, none)

/-- `ConstraintValidator.can_schedule_seminar` delegates with
`session_type = None`. -/
def can_schedule_seminar (db : Db)
    (branch_id year_section_id faculty_id classroom_id : Nat)
    (day : DayOfWeek) (period : Nat)
    (exclude_entry_id : Option Nat) : Bool × Option String :=
  can_schedule_lecture_or_tutorial db branch_id year_section_id faculty_id
    classroom_id day period none exclude_entry_id

/-- The `for period in range(start_period, end_period + 1)` sweep of
`can_schedule_lab`: first failing check wins. -/
def labPeriodsCheck (db : Db) (branch_id year_section_id faculty_id
    labroom_id : Nat) (day : DayOfWeek) (exclude_entry_id : Option Nat) :
    List Nat → Bool × Option String
  | [] => (true, none)
  | p :: ps =>
      if !is_branch_slot_free db branch_id year_section_id day p
          exclude_entry_id then
        (false, some ("Branch slot occupied on " ++ day.value ++ " P" ++
          toString p))
      else if !is_faculty_available db faculty_id day p exclude_entry_id then
        (false, some ("Faculty not available on " ++ day.value ++ " P" ++
          toString p))
      else if !is_labroom_available db labroom_id day p exclude_entry_id then
        (false, some ("Lab room not available on " ++ day.value ++ " P" ++
          toString p))
      else
        labPeriodsCheck db branch_id year_section_id faculty_id labroom_id
          day exclude_entry_id ps

/-- `LAB_NOT_ALLOWED`. -/
def LAB_NOT_ALLOWED : List Nat := [1, 2]

/-- `ConstraintValidator.can_schedule_lab`, returning
`(is_valid, error_message)`. -/
def can_schedule_lab (db : Db)
    (branch_id year_section_id faculty_id labroom_id : Nat)
    (day : DayOfWeek) (start_period : Nat) (duration : Nat)
    (exclude_entry_id : Option Nat) : Bool × Option String :=
  let end_period := start_period + duration - 1
  if duration ≠ 2 then
    (false, some ("Invalid lab duration: " ++ toString duration ++
      ". Lab duration must be exactly 2 periods."))
  else if end_period > 7 then
    (false, some ("Lab extends beyond period 7 (P" ++ toString start_period ++
      "-P" ++ toString end_period ++ ")"))
  else if start_period ∈ LAB_NOT_ALLOWED then
    (false, some ("Lab must not start in P" ++ toString start_period ++
      " (P1 and P2 are not allowed for labs)"))
  else if day = DayOfWeek.THURSDAY ∧ (start_period < 3 ∨ end_period > 6) then
    (false, some "Labs only allowed P3-P6 on Thursday")
  else if day = DayOfWeek.THURSDAY ∧ start_period ∈ LAB_NOT_ALLOWED then
    (false, some ("Labs not allowed in P" ++ toString start_period))
  else if day ≠ DayOfWeek.THURSDAY ∧ start_period ∈ LAB_NOT_ALLOWED then
    (false, some ("Labs not allowed in P" ++ toString start_period ++
      " on normal days"))
  else if has_lab_on_day db branch_id year_section_id day then
    (false, some ("Lab already scheduled for this branch-section on " ++
      day.value ++
      " — only one lab per day per branch-year-section is allowed"))
  else
    labPeriodsCheck db branch_id year_section_id faculty_id labroom_id day
      exclude_entry_id (List.range' start_period (end_period + 1 - start_period))

/-- `ConstraintValidator.is_thursday_rule_valid`, returning
`(is_valid, error_message)`. -/
def is_thursday_rule_valid (period : Nat) (session_type : SessionType)
    (day : DayOfWeek) : Bool × Option String :=
  if day ≠ DayOfWeek.THURSDAY then
    (true, none)
  else if session_type = SessionType.CLUB then
    if period ≠ 7 then (false, some "Clubs allowed only in P7 on Thursday")
    else (true, none)
  else if period = 7 then
    (false, some "Academic classes not allowed in P7 on Thursday (club slot)")
  else if period = 1 then
    (false, some "Academic classes not allowed in P1 on Thursday")
  else
    (true, none)

/- ────────────────────────────────────────────────────────────────────
   Part 3: timetable routes (`app/routes/timetables.py`)
   ──────────────────────────────────────────────────────────────────── -/

/-- A `timetable_versions` row (`TimetableVersion`). -/
structure Version where
  id : Nat
  name : String
  is_active : Bool
deriving DecidableEq, Repr

/-- The bulk `update({is_active: False})` over all versions. -/
def deactivateAll (vs : List Version) : List Version :=
  vs.map fun v => { v with is_active := false }

/-- `target.is_active = True` on the first row matching the id (the row
`first()` returned). -/
def markFirstActive : List Version → Nat → List Version
  | [], _ => []
  | v :: rest, vid =>
      if v.id = vid then { v with is_active := true } :: rest
      else v :: markFirstActive rest vid

/-- `activate_version` route: look the target up, 404 when absent,
otherwise clear every active flag and set the target's. -/
def activate_version (vs : List Version) (version_id : Nat) :
    Option (List Version) :=
  if vs.any fun v => v.id == version_id then
    some (markFirstActive (deactivateAll vs) version_id)
  else
    none

/-- Outcome of the `swap_entries` route.  `typeError` models the Python
`TypeError` raised by `ConstraintValidator(db, version_id=version.id)`:
`ConstraintValidator.__init__` in `app/services/validators.py` accepts
only `db`, so the handler aborts there (HTTP 500) on every request that
passes the earlier guards, before any validation or exchange. -/
inductive SwapOutcome where
  | notFound
  | lockedEntries
  | labEntries
  | typeError
deriving DecidableEq, Repr

/-- `swap_entries` route over the entry table and the active version id:
look both entries up in the active version, reject locked or LAB
entries, then construct the validator — which raises `TypeError`.  The
returned table is the table after the request. -/
def swap_entries (db : Db) (active_version_id first_id second_id : Nat) :
    SwapOutcome × Db :=
  let firstE := db.find? fun e =>
    e.id == first_id && e.version_id == some active_version_id
  let secondE := db.find? fun e =>
    e.id == second_id && e.version_id == some active_version_id
  match firstE, secondE with
  | some f, some s =>
      if f.is_locked || s.is_locked then (.lockedEntries, db)
      else if f.session_type == SessionType.LAB ||
          s.session_type == SessionType.LAB then (.labEntries, db)
      else (.typeError, db)
  | _, _ => (.notFound, db)

/- ────────────────────────────────────────────────────────────────────
   Part 4: time helpers (`app/services/scheduling_engine.py`)
   ──────────────────────────────────────────────────────────────────── -/

/-- Python `s.split(":")` over character lists. -/
def splitColon : List Char → List (List Char)
  | [] => [[]]
  | c :: rest =>
      if c = ':' then [] :: splitColon rest
      else
        match splitColon rest with
        | s :: ss => (c :: s) :: ss
        | [] => [[c]]

/-- Python `int` on one piece of the split string: defined exactly on
non-empty all-digit pieces (the shape the round-trip produces). -/
def parseDigits (cs : List Char) : Option Nat :=
  if cs ≠ [] ∧ cs.all Char.isDigit then some (digitsToNat cs) else none

/-- `SchedulingEngine.time_to_minutes`: split on ':', convert the two
pieces, return `hours * 60 + minutes`; `none` models the exception on a
malformed string. -/
def time_to_minutes (s : List Char) : Option Nat :=
  match splitColon s with
  | [hs, ms] =>
      match parseDigits hs, parseDigits ms with
      | some h, some m => some (h * 60 + m)
      | _, _ => none
  | _ => none

/-- The digit character of `d < 10`. -/
def digitChar (d : Nat) : Char := Char.ofNat (48 + d)

/-- Python `f"{n:02d}"` for the two-digit quantities the time helpers
format (`n < 100`). -/
def pad2 (n : Nat) : List Char :=
  if n < 10 then ['0', digitChar n]
  else [digitChar (n / 10), digitChar (n % 10)]

/-- `SchedulingEngine.minutes_to_time`: `hours = (minutes // 60) % 24`,
`mins = minutes % 60`, rendered `HH:MM`. -/
def minutes_to_time (minutes : Nat) : List Char :=
  pad2 ((minutes / 60) % 24) ++ ':' :: pad2 (minutes % 60)

/-- `SchedulingEngine.add_minutes`. -/
def add_minutes (s : List Char) (minutes_to_add : Nat) : Option (List Char) :=
  (time_to_minutes s).map fun t => minutes_to_time (t + minutes_to_add)

/- ────────────────────────────────────────────────────────────────────
   Lemmas about the time helpers
   ──────────────────────────────────────────────────────────────────── -/

theorem splitColon_no_colon (b : List Char) (hb : ':' ∉ b) :
    splitColon b = [b] := by
  induction b with
  | nil => rfl
  | cons c rest ih =>
      have hc : c ≠ ':' := fun h => hb (h ▸ List.mem_cons_self c rest)
      have hrest : ':' ∉ rest := fun h => hb (List.mem_cons_of_mem _ h)
      simp only [splitColon, if_neg hc, ih hrest]

theorem splitColon_append (a b : List Char) (ha : ':' ∉ a) :
    splitColon (a ++ ':' :: b) = a :: splitColon b := by
  induction a with
  | nil => simp [splitColon]
  | cons c rest ih =>
      have hc : c ≠ ':' := fun h => ha (h ▸ List.mem_cons_self c rest)
      have hrest : ':' ∉ rest := fun h => ha (List.mem_cons_of_mem _ h)
      simp only [List.cons_append, splitColon, if_neg hc, List.append_eq]
      rw [ih hrest]

theorem colon_not_mem_pad2 : ∀ n < 100, ':' ∉ pad2 n := by decide

theorem parseDigits_pad2 : ∀ n < 100, parseDigits (pad2 n) = some n := by decide

theorem time_to_minutes_minutes_to_time (m : Nat) :
    time_to_minutes (minutes_to_time m) = some (m % 1440) := by
  have hh : m / 60 % 24 < 100 := Nat.lt_of_lt_of_le (Nat.mod_lt _ (by omega)) (by omega)
  have hm : m % 60 < 100 := Nat.lt_of_lt_of_le (Nat.mod_lt _ (by omega)) (by omega)
  have hsplit : splitColon (minutes_to_time m)
      = [pad2 (m / 60 % 24), pad2 (m % 60)] := by
    rw [minutes_to_time, splitColon_append _ _ (colon_not_mem_pad2 _ hh),
      splitColon_no_colon _ (colon_not_mem_pad2 _ hm)]
  rw [time_to_minutes, hsplit]
  simp only [parseDigits_pad2 _ hh, parseDigits_pad2 _ hm]
  exact congrArg some (by omega)

theorem minutes_to_time_mod (n : Nat) :
    minutes_to_time n = minutes_to_time (n % 1440) := by
  have h1 : n / 60 % 24 = n % 1440 / 60 % 24 := by omega
  have h2 : n % 60 = n % 1440 % 60 := by omega
  rw [minutes_to_time, minutes_to_time, h1, h2]

/-- C10: the time helpers wrap around midnight: converting any minute
count to "HH:MM" and back yields the count modulo 1440, and
`add_minutes` on any parsable time string renders the sum of minutes
modulo one day — it never fails. -/
theorem claim10_time_wraparound :
    (∀ m : Nat, time_to_minutes (minutes_to_time m) = some (m % 1440)) ∧
    (∀ (s : List Char) (t k : Nat), time_to_minutes s = some t →
      add_minutes s k = some (minutes_to_time ((t + k) % 1440))) := by
  refine ⟨time_to_minutes_minutes_to_time, fun s t k ht => ?_⟩
  rw [add_minutes, ht]
  show some (minutes_to_time (t + k)) = _
  rw [minutes_to_time_mod]

/-- Witness for C10 at `"08:30" + 60` minutes. -/
theorem claim10_time_wraparound_witness :
    add_minutes ['0', '8', ':', '3', '0'] 60
      = some (minutes_to_time ((510 + 60) % 1440)) :=
  claim10_time_wraparound.2 ['0', '8', ':', '3', '0'] 510 60 (by decide)

/- ────────────────────────────────────────────────────────────────────
   Lemmas about versions (`activate_version`)
   ──────────────────────────────────────────────────────────────────── -/

theorem deactivateAll_idem (vs : List Version) :
    deactivateAll (deactivateAll vs) = deactivateAll vs := by
  simp [deactivateAll, List.map_map, Function.comp]

theorem deactivateAll_markFirstActive (ws : List Version) (vid : Nat) :
    deactivateAll (markFirstActive ws vid) = deactivateAll ws := by
  induction ws with
  | nil => rfl
  | cons v rest ih =>
      by_cases h : v.id = vid <;>
        simp [markFirstActive, deactivateAll, h] <;>
        simpa [deactivateAll] using ih

theorem markFirstActive_map_id (ws : List Version) (vid : Nat) :
    (markFirstActive ws vid).map (fun v => v.id) = ws.map (fun v => v.id) := by
  induction ws with
  | nil => rfl
  | cons v rest ih =>
      by_cases h : v.id = vid <;> simp [markFirstActive, h, ih]

theorem deactivateAll_map_id (vs : List Version) :
    (deactivateAll vs).map (fun v => v.id) = vs.map (fun v => v.id) := by
  simp [deactivateAll, List.map_map, Function.comp]

theorem mem_deactivateAll (vs : List Version) :
    ∀ v ∈ deactivateAll vs, v.is_active = false := by
  intro v hv
  rcases List.mem_map.mp hv with ⟨w, _, rfl⟩
  rfl

theorem any_id_deactivateAll (vs : List Version) (vid : Nat) :
    (deactivateAll vs).any (fun v => v.id == vid)
      = vs.any (fun v => v.id == vid) := by
  rw [deactivateAll, List.any_map]
  rfl

theorem any_id_markFirstActive (ws : List Version) (vid : Nat) :
    (markFirstActive ws vid).any (fun v => v.id == vid)
      = ws.any (fun v => v.id == vid) := by
  induction ws with
  | nil => rfl
  | cons v rest ih =>
      by_cases h : v.id = vid <;> simp [markFirstActive, h, ih]

theorem markFirstActive_props (ws : List Version) (vid : Nat)
    (hinact : ∀ v ∈ ws, v.is_active = false)
    (hany : ws.any (fun v => v.id == vid) = true) :
    ((markFirstActive ws vid).filter (fun v => v.is_active)).length = 1 ∧
    ∀ v ∈ markFirstActive ws vid, v.is_active = true → v.id = vid := by
  induction ws with
  | nil => simp at hany
  | cons v rest ih =>
      by_cases h : v.id = vid
      · refine ⟨?_, ?_⟩
        · have hrest : rest.filter (fun v => v.is_active) = [] :=
            List.filter_eq_nil_iff.mpr fun w hw => by
              simp [hinact w (List.mem_cons_of_mem _ hw)]
          simp [markFirstActive, h, hrest]
        · intro w hw hact
          rcases List.mem_cons.mp (by simpa [markFirstActive, h] using hw) with
            hw2 | hw2
          · simp [hw2, h]
          · exact absurd hact (by simp [hinact w (List.mem_cons_of_mem _ hw2)])
      · have hany2 : rest.any (fun v => v.id == vid) = true := by
          rcases List.any_eq_true.mp hany with ⟨w, hw, hwid⟩
          rcases List.mem_cons.mp hw with hw2 | hw2
          · exact absurd (by simpa using hwid) (hw2 ▸ h)
          · exact List.any_eq_true.mpr ⟨w, hw2, hwid⟩
        have ih2 := ih (fun w hw => hinact w (List.mem_cons_of_mem _ hw)) hany2
        refine ⟨?_, ?_⟩
        · have hv : v.is_active = false := hinact v (List.mem_cons_self _ _)
          simp [markFirstActive, h, hv, ih2.1]
        · intro w hw hact
          rcases List.mem_cons.mp (by simpa [markFirstActive, h] using hw) with
            hw2 | hw2
          · exact absurd hact
              (by simp [hw2, hinact v (List.mem_cons_self _ _)])
          · exact ih2.2 w hw2 hact

/-- C9: a successful `activate_version` leaves exactly the targeted
version active (so at most one version is flagged active), and running
it again on the same target returns the same state. -/
theorem claim9_activate_exclusive_idempotent
    (vs vs2 : List Version) (vid : Nat)
    (h : activate_version vs vid = some vs2) :
    ((vs2.filter fun v => v.is_active).length = 1 ∧
      ∀ v ∈ vs2, v.is_active = true → v.id = vid) ∧
    activate_version vs2 vid = some vs2 := by
  rw [activate_version] at h
  by_cases hany : vs.any (fun v => v.id == vid) = true
  · rw [if_pos hany] at h
    have hvs2 : vs2 = markFirstActive (deactivateAll vs) vid :=
      (Option.some_inj.mp h).symm
    have hanyD : (deactivateAll vs).any (fun v => v.id == vid) = true := by
      rw [any_id_deactivateAll]; exact hany
    have hprops := markFirstActive_props (deactivateAll vs) vid
      (mem_deactivateAll vs) hanyD
    refine ⟨⟨hvs2 ▸ hprops.1, hvs2 ▸ hprops.2⟩, ?_⟩
    have hany2 : vs2.any (fun v => v.id == vid) = true := by
      rw [hvs2, any_id_markFirstActive]; exact hanyD
    rw [activate_version, if_pos hany2, hvs2, deactivateAll_markFirstActive,
      deactivateAll_idem]

  · rw [if_neg hany] at h
    exact absurd h (by simp)

/-- Witness for C9: activating version 1 of a two-version store. -/
theorem claim9_activate_witness :
    ((((activate_version [⟨1, "a", false⟩, ⟨2, "b", true⟩] 1).getD []).filter
        (fun v => v.is_active)).length = 1 ∧
      ∀ v ∈ (activate_version [⟨1, "a", false⟩, ⟨2, "b", true⟩] 1).getD [],
        v.is_active = true → v.id = 1) ∧
    activate_version
        ((activate_version [⟨1, "a", false⟩, ⟨2, "b", true⟩] 1).getD []) 1
      = some ((activate_version [⟨1, "a", false⟩, ⟨2, "b", true⟩] 1).getD []) :=
  claim9_activate_exclusive_idempotent [⟨1, "a", false⟩, ⟨2, "b", true⟩]
    ((activate_version [⟨1, "a", false⟩, ⟨2, "b", true⟩] 1).getD []) 1 (by decide)

/-- C2 (code bug): the validator queries ignore the version column — an
entry that belongs to version 2 makes `is_faculty_available` report the
faculty busy even though version 1 (the context the callers pass) has no
entry at that slot. -/
theorem claim2_version_context_ignored :
    is_faculty_available
        [⟨1, DayOfWeek.MONDAY, 1, some 2, 1, 1, none, some 1, none, none,
          SessionType.LECTURE, false⟩]
        1 DayOfWeek.MONDAY 1 none = false ∧
    is_faculty_available
        (List.filter (fun e => e.version_id == some 1)
          [⟨1, DayOfWeek.MONDAY, 1, some 2, 1, 1, none, some 1, none, none,
            SessionType.LECTURE, false⟩])
        1 DayOfWeek.MONDAY 1 none = true := by
  decide

/-- C6 counterexample: a LECTURE on Thursday period 1 and a SEMINAR on
Thursday period 7 are both accepted by the composite check when the
slot, faculty and classroom are free — no candidate-period check runs
for them. -/
theorem claim6_counterexample :
    can_schedule_lecture_or_tutorial [] 1 1 1 1 DayOfWeek.THURSDAY 1
        (some SessionType.LECTURE) none = (true, none) ∧
    can_schedule_seminar [] 1 1 1 1 DayOfWeek.THURSDAY 7 none
      = (true, none) := by
  decide

/-- C6 amended: the composite check enforces candidate periods only for
TUTORIAL requests — any TUTORIAL outside periods 3–6 (hence Thursday P1
and P7) is rejected regardless of availability; LECTURE and SEMINAR
requests receive no period check. -/
theorem claim6_amended_tutorial_periods_only
    (db : Db) (b ys fac c : Nat) (day : DayOfWeek) (p : Nat)
    (excl : Option Nat)
    (h3 : p ≠ 3) (h4 : p ≠ 4) (h5 : p ≠ 5) (h6 : p ≠ 6) :
    (can_schedule_lecture_or_tutorial db b ys fac c day p
      (some SessionType.TUTORIAL) excl).fst = false := by
  have hnot : p ∉ TUTORIAL_ALLOWED_PERIODS := by
    simp [TUTORIAL_ALLOWED_PERIODS, h3, h4, h5, h6]
  rw [can_schedule_lecture_or_tutorial, if_pos ⟨rfl, hnot⟩]

/-- Witness for the C6 amendment: a TUTORIAL at Thursday P7 with an
empty table is rejected. -/
theorem claim6_amended_witness :
    (can_schedule_lecture_or_tutorial [] 1 1 1 1 DayOfWeek.THURSDAY 7
      (some SessionType.TUTORIAL) none).fst = false :=
  claim6_amended_tutorial_periods_only [] 1 1 1 1 DayOfWeek.THURSDAY 7 none
    (by decide) (by decide) (by decide) (by decide)

/-- C7 (code bug): with two unlocked non-LAB entries present in the
active version, `swap_entries` reaches the validator construction and
aborts with the modelled `TypeError`, leaving the table unchanged — the
exchange never happens. -/
theorem claim7_swap_raises_type_error :
    swap_entries
        [⟨1, DayOfWeek.MONDAY, 1, some 1, 1, 1, some 1, some 1, some 1, none,
          SessionType.LECTURE, false⟩,
         ⟨2, DayOfWeek.TUESDAY, 2, some 1, 1, 1, some 2, some 2, some 2, none,
          SessionType.LECTURE, false⟩]
        1 1 2
      = (SwapOutcome.typeError,
        [⟨1, DayOfWeek.MONDAY, 1, some 1, 1, 1, some 1, some 1, some 1, none,
          SessionType.LECTURE, false⟩,
         ⟨2, DayOfWeek.TUESDAY, 2, some 1, 1, 1, some 2, some 2, some 2, none,
          SessionType.LECTURE, false⟩]) := by
  decide

/- ────────────────────────────────────────────────────────────────────
   Lemmas about `can_schedule_lab`
   ──────────────────────────────────────────────────────────────────── -/

theorem labPeriodsCheck_fst (db : Db) (b ys fac lab : Nat) (day : DayOfWeek)
    (excl : Option Nat) (ps : List Nat) :
    (labPeriodsCheck db b ys fac lab day excl ps).fst = true ↔
      ∀ p ∈ ps,
        is_branch_slot_free db b ys day p excl = true ∧
        is_faculty_available db fac day p excl = true ∧
        is_labroom_available db lab day p excl = true := by
  induction ps with
  | nil => simp [labPeriodsCheck]
  | cons p rest ih =>
      by_cases hb : is_branch_slot_free db b ys day p excl = true
      · by_cases hf : is_faculty_available db fac day p excl = true
        · by_cases hl : is_labroom_available db lab day p excl = true
          · simp [labPeriodsCheck, hb, hf, hl, ih]
          · simp [labPeriodsCheck, hb, hf, hl]
        · simp [labPeriodsCheck, hb, hf]
      · simp [labPeriodsCheck, hb]

theorem labPeriodsCheck_snd (db : Db) (b ys fac lab : Nat) (day : DayOfWeek)
    (excl : Option Nat) (ps : List Nat) :
    (labPeriodsCheck db b ys fac lab day excl ps).snd = none ↔
      (labPeriodsCheck db b ys fac lab day excl ps).fst = true := by
  induction ps with
  | nil => simp [labPeriodsCheck]
  | cons p rest ih =>
      by_cases hb : is_branch_slot_free db b ys day p excl = true
      · by_cases hf : is_faculty_available db fac day p excl = true
        · by_cases hl : is_labroom_available db lab day p excl = true
          · simpa [labPeriodsCheck, hb, hf, hl] using ih
          · simp [labPeriodsCheck, hb, hf, hl]
        · simp [labPeriodsCheck, hb, hf]
      · simp [labPeriodsCheck, hb]

theorem range_two (start : Nat) :
    List.range' start (start + 1 + 1 - start) = [start, start + 1] := by
  have h : start + 1 + 1 - start = 2 := by omega
  rw [h]
  rfl

/-- C5: characterization of `can_schedule_lab` for the fixed duration 2:
it accepts exactly when the start period is not 1 or 2, the block ends
by period 6 on Thursday and by period 7 otherwise, no LAB already exists
for the cohort and day, and for both periods the cohort slot, the
faculty and the lab room are free; a reason string is returned exactly
on rejection.  In particular every Thursday request with start period 6
is rejected (its end period 7 exceeds 6). -/
theorem claim5_can_schedule_lab_characterization :
    (∀ (db : Db) (b ys fac lab : Nat) (day : DayOfWeek) (start : Nat)
        (excl : Option Nat),
      ((can_schedule_lab db b ys fac lab day start 2 excl).fst = true ↔
        ((start ≠ 1 ∧ start ≠ 2) ∧
         (if day = DayOfWeek.THURSDAY then 3 ≤ start ∧ start + 1 ≤ 6
          else start + 1 ≤ 7) ∧
         has_lab_on_day db b ys day = false ∧
         ∀ p ∈ [start, start + 1],
           is_branch_slot_free db b ys day p excl = true ∧
           is_faculty_available db fac day p excl = true ∧
           is_labroom_available db lab day p excl = true)) ∧
      ((can_schedule_lab db b ys fac lab day start 2 excl).snd = none ↔
        (can_schedule_lab db b ys fac lab day start 2 excl).fst = true)) ∧
    (∀ (db : Db) (b ys fac lab : Nat) (excl : Option Nat),
      (can_schedule_lab db b ys fac lab DayOfWeek.THURSDAY 6 2 excl).fst
        = false) := by
  have main : ∀ (db : Db) (b ys fac lab : Nat) (day : DayOfWeek) (start : Nat)
      (excl : Option Nat),
      ((can_schedule_lab db b ys fac lab day start 2 excl).fst = true ↔
        ((start ≠ 1 ∧ start ≠ 2) ∧
         (if day = DayOfWeek.THURSDAY then 3 ≤ start ∧ start + 1 ≤ 6
          else start + 1 ≤ 7) ∧
         has_lab_on_day db b ys day = false ∧
         ∀ p ∈ [start, start + 1],
           is_branch_slot_free db b ys day p excl = true ∧
           is_faculty_available db fac day p excl = true ∧
           is_labroom_available db lab day p excl = true)) ∧
      ((can_schedule_lab db b ys fac lab day start 2 excl).snd = none ↔
        (can_schedule_lab db b ys fac lab day start 2 excl).fst = true) := by
    intro db b ys fac lab day start excl
    rw [can_schedule_lab]
    rw [show start + 2 - 1 = start + 1 from by omega]
    rw [if_neg (by omega : ¬(2 : Nat) ≠ 2)]
    have hmem : start ∈ LAB_NOT_ALLOWED ↔ (start = 1 ∨ start = 2) := by
      simp [LAB_NOT_ALLOWED]
    by_cases h2 : start + 1 > 7
    · rw [if_pos h2]
      refine ⟨⟨by simp, ?_⟩, by simp⟩
      simp only [false_iff]
      rintro ⟨-, hday, -, -⟩
      split_ifs at hday <;> omega
    rw [if_neg h2]
    by_cases h3 : start = 1 ∨ start = 2
    · rw [if_pos (hmem.mpr h3)]
      refine ⟨⟨by simp, ?_⟩, by simp⟩
      simp only [false_iff]
      rintro ⟨⟨hs1, hs2⟩, -, -, -⟩
      rcases h3 with h | h <;> omega
    rw [if_neg (fun hc => h3 (hmem.mp hc))]
    by_cases h4 : day = DayOfWeek.THURSDAY ∧ (start < 3 ∨ start + 1 > 6)
    · rw [if_pos h4]
      refine ⟨⟨by simp, ?_⟩, by simp⟩
      simp only [false_iff]
      rintro ⟨-, hday, -, -⟩
      rw [if_pos h4.1] at hday
      rcases h4.2 with h | h <;> omega
    rw [if_neg h4]
    rw [if_neg (fun hc : day = DayOfWeek.THURSDAY ∧ start ∈ LAB_NOT_ALLOWED =>
      h3 (hmem.mp hc.2))]
    rw [if_neg (fun hc : day ≠ DayOfWeek.THURSDAY ∧ start ∈ LAB_NOT_ALLOWED =>
      h3 (hmem.mp hc.2))]
    by_cases h7 : has_lab_on_day db b ys day = true
    · rw [if_pos h7]
      refine ⟨⟨by simp, ?_⟩, by simp⟩
      simp only [false_iff]
      rintro ⟨-, -, hlab, -⟩
      rw [h7] at hlab
      exact absurd hlab (by simp)
    rw [if_neg h7]
    rw [range_two]
    have hlab0 : has_lab_on_day db b ys day = false := by
      cases hv : has_lab_on_day db b ys day
      · rfl
      · exact absurd hv h7
    have hday2 : (if day = DayOfWeek.THURSDAY then 3 ≤ start ∧ start + 1 ≤ 6
        else start + 1 ≤ 7) := by
      by_cases hday : day = DayOfWeek.THURSDAY
      · rw [if_pos hday]
        constructor
        · by_contra hlt
          exact h4 ⟨hday, Or.inl (by omega)⟩
        · by_contra hgt
          exact h4 ⟨hday, Or.inr (by omega)⟩
      · rw [if_neg hday]
        omega
    constructor
    · rw [labPeriodsCheck_fst]
      constructor
      · intro hok
        exact ⟨⟨by omega, by omega⟩, hday2, hlab0, hok⟩
      · rintro ⟨-, -, -, hok⟩
        exact hok
    · exact labPeriodsCheck_snd db b ys fac lab day excl _
  refine ⟨main, fun db b ys fac lab excl => ?_⟩
  have h := (main db b ys fac lab DayOfWeek.THURSDAY 6 excl).1
  cases hv : (can_schedule_lab db b ys fac lab DayOfWeek.THURSDAY 6 2 excl).fst
  · rfl
  · have := h.mp hv
    rw [if_pos rfl] at this
    omega

/- ────────────────────────────────────────────────────────────────────
   Lemmas about the CP-SAT model
   ──────────────────────────────────────────────────────────────────── -/

theorem mem_pyDictKeys_foldl (k : VarKey) :
    ∀ (ks acc : List VarKey),
      (k ∈ ks.foldl (fun acc k => if k ∈ acc then acc else acc ++ [k]) acc ↔
        k ∈ acc ∨ k ∈ ks) := by
  intro ks
  induction ks with
  | nil => simp
  | cons j rest ih =>
      intro acc
      rw [List.foldl_cons, ih]
      by_cases hj : j ∈ acc
      · simp only [if_pos hj, List.mem_cons]
        constructor
        · rintro (h | h)
          · exact Or.inl h
          · exact Or.inr (Or.inr h)
        · rintro (h | h | h)
          · exact Or.inl h
          · exact Or.inl (h ▸ hj)
          · exact Or.inr h
      · simp only [if_neg hj, List.mem_append, List.mem_singleton,
          List.mem_cons]
        tauto

theorem mem_pyDictKeys (k : VarKey) (ks : List VarKey) :
    k ∈ pyDictKeys ks ↔ k ∈ ks := by
  rw [pyDictKeys, mem_pyDictKeys_foldl]
  simp

theorem mem_varKeys (k : VarKey) (assignments : List Asgn)
    (rooms : List String) :
    k ∈ varKeys assignments rooms ↔
      ∃ a ∈ assignments, ∃ d ∈ DAYS, ∃ p ∈ PERIODS, ∃ r ∈ rooms,
        k = ⟨a.teacher_name, a.subject_name, a.branch, a.year, a.section_,
          d, p, r⟩ := by
  rw [varKeys, mem_pyDictKeys]
  simp only [List.mem_flatMap, List.mem_map]
  constructor
  · rintro ⟨a, ha, d, hd, p, hp, r, hr, rfl⟩
    exact ⟨a, ha, d, hd, p, hp, r, hr, rfl⟩
  · rintro ⟨a, ha, d, hd, p, hp, r, hr, rfl⟩
    exact ⟨a, ha, d, hd, p, hp, r, hr, rfl⟩

theorem varKeys_rooms_nil (assignments : List Asgn) :
    varKeys assignments [] = [] := by
  have h : assignments.flatMap (fun a =>
      DAYS.flatMap fun d => PERIODS.flatMap fun p =>
        ([] : List String).map fun r =>
          (⟨a.teacher_name, a.subject_name, a.branch, a.year, a.section_,
            d, p, r⟩ : VarKey)) = [] := by
    simp
  rw [varKeys, h]
  rfl

/-- The CP-SAT model built by `ConstraintBuilder.apply_all` is
unsatisfiable as soon as one assignment and one room exist: the Thursday
club rule zeroes every Thursday period-1 variable while the first-slot
rule demands at least one of them. -/
theorem cpModel_infeasible (assignments : List Asgn)
    (teachers rooms lab_subjects : List String)
    (ha : assignments ≠ []) (hr : rooms ≠ []) :
    ¬ ∃ f, SatisfiesConstraints assignments teachers rooms lab_subjects f := by
  rintro ⟨f, hsat⟩
  rcases List.exists_mem_of_ne_nil _ ha with ⟨a, hamem⟩
  rcases List.exists_mem_of_ne_nil _ hr with ⟨r, hrmem⟩
  set k0 : VarKey :=
    ⟨a.teacher_name, a.subject_name, a.branch, a.year, a.section_,
      "Thursday", 1, r⟩ with hk0def
  have hk0 : k0 ∈ varKeys assignments rooms :=
    (mem_varKeys k0 assignments rooms).mpr
      ⟨a, hamem, "Thursday", by decide, 1, by decide, r, hrmem, rfl⟩
  have hpred : (fun k : VarKey =>
      k.branch == a.branch && k.year == a.year && k.section_ == a.section_ &&
      k.day == "Thursday" && k.period == 1) k0 = true := by
    simp [hk0def]
  have hk0f : k0 ∈ (varKeys assignments rooms).filter (fun k =>
      k.branch == a.branch && k.year == a.year && k.section_ == a.section_ &&
      k.day == "Thursday" && k.period == 1) :=
    List.mem_filter.mpr ⟨hk0, hpred⟩
  have hfs := hsat.2.2.2.2.2.2 "Thursday" (by decide) a hamem
    (List.ne_nil_of_mem hk0f)
  rw [countTrue] at hfs
  have hne : ((varKeys assignments rooms).filter (fun k =>
      k.branch == a.branch && k.year == a.year && k.section_ == a.section_ &&
      k.day == "Thursday" && k.period == 1)).filter f ≠ [] := by
    intro hnil
    rw [hnil] at hfs
    simp at hfs
  rcases List.exists_mem_of_ne_nil _ hne with ⟨k, hk⟩
  have hk1 := List.mem_filter.mp hk
  have hk2 := List.mem_filter.mp hk1.1
  have hday : k.day = "Thursday" := by
    have := hk2.2
    simp only [Bool.and_eq_true, beq_iff_eq] at this
    exact this.1.2
  have hperiod : k.period = 1 := by
    have := hk2.2
    simp only [Bool.and_eq_true, beq_iff_eq] at this
    exact this.2
  have hzero : f k = false :=
    hsat.2.2.2.2.2.1 k hk2.1 hday (Or.inl hperiod)
  rw [hk1.2] at hzero
  exact absurd hzero (by simp)

/-- With no rooms there are no decision variables and the all-false
assignment satisfies every constraint family. -/
theorem satisfies_of_rooms_nil (assignments : List Asgn)
    (teachers lab_subjects : List String) :
    SatisfiesConstraints assignments teachers [] lab_subjects
      (fun _ => false) := by
  have hkeys := varKeys_rooms_nil assignments
  refine ⟨?_, ?_, ?_, ?_, ?_, ?_, ?_⟩
  · intro d _ p _ t _
    rw [hkeys]
    simp [countTrue]
  · intro d _ p _ r hrmem
    exact absurd hrmem (List.not_mem_nil r)
  · intro a _ hne
    rw [hkeys] at hne
    simp at hne
  · intro k hk
    rw [hkeys] at hk
    exact absurd hk (List.not_mem_nil k)
  · intro k hk
    rw [hkeys] at hk
    exact absurd hk (List.not_mem_nil k)
  · intro k hk
    rw [hkeys] at hk
    exact absurd hk (List.not_mem_nil k)
  · intro d _ a _ hne
    rw [hkeys] at hne
    simp at hne

/- ────────────────────────────────────────────────────────────────────
   Lemmas about the greedy fallback
   ──────────────────────────────────────────────────────────────────── -/

theorem slotTypeOf_eq_lab (s : String) (labs : List String)
    (h : slotTypeOf s labs = "LAB") : s ∈ labs := by
  by_cases hmem : s ∈ labs
  · exact hmem
  · rw [slotTypeOf, if_neg hmem] at h
    split_ifs at h <;> simp_all

/-- Invariants of the greedy loop that look only at the placed slots and
the used-teacher set: they are preserved by every iteration, because a
slot is committed only after the Thursday-club skip, the lab early-period
skip and the used-teacher check. -/
theorem greedyLoop_inv (labs rooms : List String) (a : Asgn)
    (Inv : List Slot → List (String × Nat × String) → Prop)
    (hplace : ∀ (res : List Slot) (used : List (String × Nat × String))
        (day : String) (period : Nat) (room : String),
      Inv res used →
      ¬(day = "Thursday" ∧ (period = 1 ∨ period = 7)) →
      ¬(a.subject_name ∈ labs ∧ (period = 1 ∨ period = 2)) →
      (day, period, a.teacher_name) ∉ used →
      Inv (res ++ [⟨day, period, a.branch, yearIntOf a.year, a.section_,
            a.subject_name, a.teacher_name, room,
            slotTypeOf a.subject_name labs⟩])
          (used ++ [(day, period, a.teacher_name)])) :
    ∀ (fuel rem : Nat) (st : GreedyState),
      Inv st.result st.teacherUsed →
      Inv (greedyLoop labs rooms a fuel rem st).result
        (greedyLoop labs rooms a fuel rem st).teacherUsed := by
  intro fuel
  induction fuel with
  | zero =>
      intro rem st hst
      simpa [greedyLoop] using hst
  | succ fp ih =>
      intro rem st hst
      cases rem with
      | zero => simpa [greedyLoop] using hst
      | succ rp =>
          rw [greedyLoop]
          dsimp only
          set day := DAYS.getD (st.dayIdx % DAYS.length) "" with hday
          set period := PERIODS.getD (st.periodIdx % PERIODS.length) 0
            with hperiod
          set room := if rooms.isEmpty = true then "TBD"
            else rooms.getD (st.roomIdx % rooms.length) "TBD" with hroom
          by_cases h1 : day = "Thursday" ∧ (period = 1 ∨ period = 7)
          · rw [if_pos h1]
            exact ih _ _ hst
          rw [if_neg h1]
          by_cases h2 : a.subject_name ∈ labs ∧ (period = 1 ∨ period = 2)
          · rw [if_pos h2]
            exact ih _ _ hst
          rw [if_neg h2]
          by_cases hok : (day, period, room) ∉ st.roomUsed ∧
              (day, period, a.teacher_name) ∉ st.teacherUsed
          · rw [if_pos hok]
            have hnew := hplace st.result st.teacherUsed day period room
              hst h1 h2 hok.2
            split_ifs with hroll
            · exact ih _ _ hnew
            · exact ih _ _ hnew
          · rw [if_neg hok]
            split_ifs with hroll
            · exact ih _ _ hst
            · exact ih _ _ hst

/-- Lifting `greedyLoop_inv` over the assignment loop of
`_greedy_fallback`. -/
theorem greedy_fallback_inv (assignments : List Asgn)
    (rooms labs : List String)
    (Inv : List Slot → List (String × Nat × String) → Prop)
    (hplace : ∀ a ∈ assignments,
      ∀ (res : List Slot) (used : List (String × Nat × String))
        (day : String) (period : Nat) (room : String),
      Inv res used →
      ¬(day = "Thursday" ∧ (period = 1 ∨ period = 7)) →
      ¬(a.subject_name ∈ labs ∧ (period = 1 ∨ period = 2)) →
      (day, period, a.teacher_name) ∉ used →
      Inv (res ++ [⟨day, period, a.branch, yearIntOf a.year, a.section_,
            a.subject_name, a.teacher_name, room,
            slotTypeOf a.subject_name labs⟩])
          (used ++ [(day, period, a.teacher_name)]))
    (hinit : Inv [] []) :
    Inv (assignments.foldl
        (fun st a => greedyLoop labs rooms a
          (DAYS.length * PERIODS.length * max 1 rooms.length) a.lectures_per_week st)
        initGreedyState).result
      (assignments.foldl
        (fun st a => greedyLoop labs rooms a
          (DAYS.length * PERIODS.length * max 1 rooms.length) a.lectures_per_week st)
        initGreedyState).teacherUsed := by
  have hgen : ∀ (asgs : List Asgn), (∀ a ∈ asgs, a ∈ assignments) →
      ∀ (st : GreedyState), Inv st.result st.teacherUsed →
      Inv (asgs.foldl
          (fun st a => greedyLoop labs rooms a
            (DAYS.length * PERIODS.length * max 1 rooms.length) a.lectures_per_week st) st).result
        (asgs.foldl
          (fun st a => greedyLoop labs rooms a
            (DAYS.length * PERIODS.length * max 1 rooms.length) a.lectures_per_week st) st).teacherUsed := by
    intro asgs
    induction asgs with
    | nil => intro _ st hst; exact hst
    | cons a rest ihr =>
        intro hsub st hst
        rw [List.foldl_cons]
        exact ihr (fun b hb => hsub b (List.mem_cons_of_mem _ hb)) _
          (greedyLoop_inv labs rooms a Inv
            (hplace a (hsub a (List.mem_cons_self _ _))) _ _ _ hst)
  exact hgen assignments (fun _ h => h) initGreedyState hinit

theorem insertSortedSlot_perm (x : Slot) (l : List Slot) :
    (insertSortedSlot x l).Perm (x :: l) := by
  induction l with
  | nil => exact List.Perm.refl _
  | cons y ys ih =>
      rw [insertSortedSlot]
      by_cases h : slotLe x y = true
      · rw [if_pos h]
      · rw [if_neg h]
        exact (ih.cons y).trans (List.Perm.swap x y ys)

theorem sortSlots_perm (l : List Slot) : (sortSlots l).Perm l := by
  induction l with
  | nil => exact List.Perm.refl _
  | cons a l ih =>
      rw [sortSlots, List.foldr_cons]
      exact (insertSortedSlot_perm a _).trans (ih.cons a)

theorem mem_sortSlots (e : Slot) (l : List Slot) :
    e ∈ sortSlots l ↔ e ∈ l :=
  (sortSlots_perm l).mem_iff

theorem sortSlots_filter_length (p : Slot → Bool) (l : List Slot) :
    ((sortSlots l).filter p).length = (l.filter p).length :=
  ((sortSlots_perm l).filter p).length_eq

theorem cpOutput_rooms_nil_timetable (asg : List Asgn) (labs : List String)
    (f : VarKey → Bool) : (cpOutput asg [] labs f).timetable = [] := by
  have h : sortSlots (((varKeys asg []).filter f).map (slotOfKey labs)) = [] := by
    rw [varKeys_rooms_nil]
    simp [sortSlots]
  simp [cpOutput, h]

/-- Control-flow of `allocate` under a sound solver oracle: the output
timetable is empty, or the run took the greedy fallback. -/
theorem allocate_sound_shape (inp : AllocInput) (sol : Option (VarKey → Bool))
    (hsound : SolverSound inp sol) :
    (allocate inp sol).timetable = [] ∨
      allocate inp sol =
        greedy_fallback
          (applyFilters inp.assignments inp.branch_filter inp.year_filter
            inp.section_filter)
          inp.rooms inp.lab_subjects := by
  rw [allocate.eq_def]
  dsimp only
  by_cases hasg : (applyFilters inp.assignments inp.branch_filter
      inp.year_filter inp.section_filter).isEmpty = true
  · rw [if_pos hasg]
    exact Or.inl rfl
  rw [if_neg hasg]
  cases sol with
  | none => exact Or.inr rfl
  | some f =>
      by_cases hrooms : inp.rooms = []
      · left
        rw [hrooms]
        exact cpOutput_rooms_nil_timetable _ _ f
      · exact absurd ⟨f, hsound f rfl⟩
          (cpModel_infeasible _ inp.teachers inp.rooms inp.lab_subjects
            (fun hnil => hasg (by rw [hnil]; rfl)) hrooms)

/-- Control-flow of `allocate` under a sound and decisive solver oracle
with a non-empty filtered assignment list: the timetable is empty when
there are no rooms (the CP-SAT path with an empty model) and the greedy
fallback's otherwise (the non-empty model is infeasible). -/
theorem allocate_sound_decisive_timetable (inp : AllocInput)
    (sol : Option (VarKey → Bool))
    (hsound : SolverSound inp sol) (hdec : SolverDecisive inp sol)
    (hasg : (applyFilters inp.assignments inp.branch_filter inp.year_filter
      inp.section_filter).isEmpty = false) :
    (allocate inp sol).timetable =
      if inp.rooms.isEmpty then []
      else (greedy_fallback
        (applyFilters inp.assignments inp.branch_filter inp.year_filter
          inp.section_filter)
        inp.rooms inp.lab_subjects).timetable := by
  rw [allocate.eq_def]
  dsimp only
  rw [if_neg (by rw [hasg]; exact Bool.false_ne_true)]
  cases sol with
  | some f =>
      by_cases hrooms : inp.rooms = []
      · rw [if_pos (by rw [hrooms]; rfl), hrooms]
        exact cpOutput_rooms_nil_timetable _ _ f
      · exact absurd ⟨f, hsound f rfl⟩
          (cpModel_infeasible _ inp.teachers inp.rooms inp.lab_subjects
            (fun hnil => by rw [hnil] at hasg; exact absurd hasg (by simp))
            hrooms)
  | none =>
      by_cases hrooms : inp.rooms = []
      · exfalso
        refine hdec rfl ⟨fun _ => false, ?_⟩
        rw [hrooms]
        exact satisfies_of_rooms_nil _ inp.teachers inp.lab_subjects
      · rw [if_neg (fun h => hrooms (List.isEmpty_iff.mp h))]

/-- C8: the produced timetable is a pure function of the inputs — any
two runs of `allocate` on the same input, each with a sound and decisive
solver outcome, return the same timetable (the non-empty CP-SAT model is
infeasible, so both runs take the deterministic greedy fallback; there
is no other source of nondeterminism). -/
theorem claim8_allocate_deterministic (inp : AllocInput)
    (sol1 sol2 : Option (VarKey → Bool))
    (hs1 : SolverSound inp sol1) (hs2 : SolverSound inp sol2)
    (hd1 : SolverDecisive inp sol1) (hd2 : SolverDecisive inp sol2) :
    (allocate inp sol1).timetable = (allocate inp sol2).timetable := by
  by_cases hasg : (applyFilters inp.assignments inp.branch_filter
      inp.year_filter inp.section_filter).isEmpty = true
  · rw [allocate.eq_def, allocate.eq_def]
    dsimp only
    rw [if_pos hasg, if_pos hasg]
  · have h1 := allocate_sound_decisive_timetable inp sol1 hs1 hd1
      (Bool.not_eq_true _ ▸ hasg)
    have h2 := allocate_sound_decisive_timetable inp sol2 hs2 hd2
      (Bool.not_eq_true _ ▸ hasg)
    rw [h1, h2]

/-- Witness for C8: two fallback runs on a one-assignment input. -/
theorem claim8_allocate_deterministic_witness :
    (allocate ⟨[⟨"T", "L", "B", "1", "A", 1⟩], ["T"], ["R"], ["L"],
        none, none, none⟩ none).timetable =
    (allocate ⟨[⟨"T", "L", "B", "1", "A", 1⟩], ["T"], ["R"], ["L"],
        none, none, none⟩ none).timetable :=
  claim8_allocate_deterministic
    ⟨[⟨"T", "L", "B", "1", "A", 1⟩], ["T"], ["R"], ["L"], none, none, none⟩
    none none
    (fun f h => by cases h) (fun f h => by cases h)
    (fun _ => cpModel_infeasible _ _ _ _ (by decide) (by decide))
    (fun _ => cpModel_infeasible _ _ _ _ (by decide) (by decide))

theorem greedy_fallback_mem_timetable (asg : List Asgn)
    (rooms labs : List String) (e : Slot)
    (he : e ∈ (greedy_fallback asg rooms labs).timetable) :
    e ∈ (asg.foldl
      (fun st a => greedyLoop labs rooms a
        (DAYS.length * PERIODS.length * max 1 rooms.length) a.lectures_per_week st)
      initGreedyState).result := by
  rw [greedy_fallback] at he
  dsimp only at he
  rw [mem_sortSlots] at he
  exact he

theorem greedy_fallback_no_thursday_reserved (asg : List Asgn)
    (rooms labs : List String) :
    ∀ e ∈ (greedy_fallback asg rooms labs).timetable,
      ¬(e.day = "Thursday" ∧ (e.period = 1 ∨ e.period = 7)) := by
  intro e he
  have he2 := greedy_fallback_mem_timetable asg rooms labs e he
  have hinv := greedy_fallback_inv asg rooms labs
    (fun res _ => ∀ x ∈ res,
      ¬(x.day = "Thursday" ∧ (x.period = 1 ∨ x.period = 7)))
    (fun a _ res used day period room hres hday _ _ x hx => by
      rcases List.mem_append.mp hx with hx2 | hx2
      · exact hres x hx2
      · rw [List.mem_singleton] at hx2
        subst hx2
        exact hday)
    (fun x hx => absurd hx (List.not_mem_nil x))
  exact hinv e he2

theorem greedy_fallback_lab_not_early (asg : List Asgn)
    (rooms labs : List String) :
    ∀ e ∈ (greedy_fallback asg rooms labs).timetable,
      e.type = "LAB" → ¬(e.period = 1 ∨ e.period = 2) := by
  intro e he
  have he2 := greedy_fallback_mem_timetable asg rooms labs e he
  have hinv := greedy_fallback_inv asg rooms labs
    (fun res _ => ∀ x ∈ res, x.type = "LAB" → ¬(x.period = 1 ∨ x.period = 2))
    (fun a _ res used day period room hres _ hlab _ x hx => by
      rcases List.mem_append.mp hx with hx2 | hx2
      · exact hres x hx2
      · rw [List.mem_singleton] at hx2
        subst hx2
        intro htype hper
        exact hlab ⟨slotTypeOf_eq_lab _ _ htype, hper⟩)
    (fun x hx => absurd hx (List.not_mem_nil x))
  exact hinv e he2

/-- The faculty-uniqueness loop invariant of the greedy fallback. -/
def FacultyUniqueInv (res : List Slot)
    (used : List (String × Nat × String)) : Prop :=
  ∀ (t d : String) (p : Nat),
    ((res.filter
      (fun e => e.faculty == t && e.day == d && e.period == p)).length ≤ 1) ∧
    ((d, p, t) ∉ used →
      (res.filter
        (fun e => e.faculty == t && e.day == d && e.period == p)).length = 0)

theorem facultyUniqueInv_place (a : Asgn) (labs : List String)
    (res : List Slot) (used : List (String × Nat × String))
    (day : String) (period : Nat) (room : String)
    (hres : FacultyUniqueInv res used)
    (hfresh : (day, period, a.teacher_name) ∉ used) :
    FacultyUniqueInv
      (res ++ [⟨day, period, a.branch, yearIntOf a.year, a.section_,
        a.subject_name, a.teacher_name, room, slotTypeOf a.subject_name labs⟩])
      (used ++ [(day, period, a.teacher_name)]) := by
  intro t2 d2 p2
  have hiff : ((fun e : Slot =>
      e.faculty == t2 && e.day == d2 && e.period == p2)
      ⟨day, period, a.branch, yearIntOf a.year, a.section_,
        a.subject_name, a.teacher_name, room,
        slotTypeOf a.subject_name labs⟩ = true) ↔
      (a.teacher_name = t2 ∧ day = d2 ∧ period = p2) := by
    simp [and_assoc]
  by_cases hm : a.teacher_name = t2 ∧ day = d2 ∧ period = p2
  · have hpred := hiff.mpr hm
    have hzero : (res.filter
        (fun e => e.faculty == t2 && e.day == d2 && e.period == p2)).length
        = 0 := by
      refine (hres t2 d2 p2).2 ?_
      rw [← hm.1, ← hm.2.1, ← hm.2.2]
      exact hfresh
    constructor
    · rw [List.filter_append, List.length_append, hzero]
      simp [hpred]
    · intro hnot
      exfalso
      refine hnot ?_
      rw [← hm.1, ← hm.2.1, ← hm.2.2]
      exact List.mem_append_right _ (List.mem_singleton.mpr rfl)
  · have hpred : ((fun e : Slot =>
        e.faculty == t2 && e.day == d2 && e.period == p2)
        ⟨day, period, a.branch, yearIntOf a.year, a.section_,
          a.subject_name, a.teacher_name, room,
          slotTypeOf a.subject_name labs⟩) = false := by
      by_cases hb : ((fun e : Slot =>
          e.faculty == t2 && e.day == d2 && e.period == p2)
          ⟨day, period, a.branch, yearIntOf a.year, a.section_,
            a.subject_name, a.teacher_name, room,
            slotTypeOf a.subject_name labs⟩) = true
      · exact absurd (hiff.mp hb) hm
      · exact Bool.eq_false_iff.mpr hb
    have hsame : ((res ++ [(⟨day, period, a.branch, yearIntOf a.year,
        a.section_, a.subject_name, a.teacher_name, room,
        slotTypeOf a.subject_name labs⟩ : Slot)]).filter
          (fun e => e.faculty == t2 && e.day == d2 && e.period == p2))
        = res.filter
          (fun e => e.faculty == t2 && e.day == d2 && e.period == p2) := by
      rw [List.filter_append]
      simp [hpred]
    constructor
    · rw [hsame]
      exact (hres t2 d2 p2).1
    · intro hnot
      rw [hsame]
      exact (hres t2 d2 p2).2
        (fun hmem => hnot (List.mem_append_left _ hmem))

theorem greedy_fallback_faculty_unique (asg : List Asgn)
    (rooms labs : List String) (t d : String) (p : Nat) :
    ((greedy_fallback asg rooms labs).timetable.filter
      (fun e => e.faculty == t && e.day == d && e.period == p)).length ≤ 1 := by
  have hsort : ((greedy_fallback asg rooms labs).timetable.filter
      (fun e => e.faculty == t && e.day == d && e.period == p)).length =
      (((asg.foldl
        (fun st a => greedyLoop labs rooms a
          (DAYS.length * PERIODS.length * max 1 rooms.length) a.lectures_per_week st)
        initGreedyState).result).filter
        (fun e => e.faculty == t && e.day == d && e.period == p)).length := by
    rw [greedy_fallback]
    dsimp only
    exact sortSlots_filter_length _ _
  rw [hsort]
  have hinv := greedy_fallback_inv asg rooms labs FacultyUniqueInv
    (fun a _ res used day period room hres _ _ hfresh =>
      facultyUniqueInv_place a labs res used day period room hres hfresh)
    (fun t2 d2 p2 => by simp [FacultyUniqueInv])
  exact (hinv t d p).1

/-- C1 counterexample: a lab subject with one weekly slot makes the
greedy fallback place a single LAB entry at Monday period 3 with no
partner entry at period 4 — LAB entries do not come in consecutive
pairs on the fallback path. -/
theorem claim1_lab_contiguity_counterexample :
    (greedy_fallback [⟨"T", "L", "B", "1", "A", 1⟩] ["R"] ["L"]).timetable
        = [⟨"Monday", 3, "B", YearVal.num 1, "A", "L", "T", "R", "LAB"⟩] ∧
    ((greedy_fallback [⟨"T", "L", "B", "1", "A", 1⟩] ["R"] ["L"]).timetable.filter
        (fun e => e.period == 4)) = [] := by
  decide

/-- C1 amended: on both paths of `allocate` every LAB entry avoids
periods 1 and 2 (on the CP-SAT path because lab variables at periods 1–2
are fixed to 0 and the non-empty model is infeasible anyway, on the
fallback path because those periods are skipped for lab subjects); the
two-consecutive-period pairing itself is not guaranteed. -/
theorem claim1_amended_lab_periods (inp : AllocInput)
    (sol : Option (VarKey → Bool)) (hsound : SolverSound inp sol) :
    (allocate inp sol).timetable.filter
      (fun e => e.type == "LAB" && (e.period == 1 || e.period == 2)) = [] := by
  rcases allocate_sound_shape inp sol hsound with h | h
  · rw [h]
    rfl
  · rw [h]
    rw [List.filter_eq_nil_iff]
    intro e he
    have hlab := greedy_fallback_lab_not_early _ _ _ e he
    simp only [Bool.and_eq_true, Bool.or_eq_true, beq_iff_eq, not_and, not_or]
    intro htype
    have := hlab htype
    constructor
    · intro h1
      exact this (Or.inl h1)
    · intro h2
      exact this (Or.inr h2)

/-- Witness for the C1 amendment on a concrete fallback run. -/
theorem claim1_amended_lab_periods_witness :
    (allocate ⟨[⟨"T", "L", "B", "1", "A", 1⟩], ["T"], ["R"], ["L"],
        none, none, none⟩ none).timetable.filter
      (fun e => e.type == "LAB" && (e.period == 1 || e.period == 2)) = [] :=
  claim1_amended_lab_periods
    ⟨[⟨"T", "L", "B", "1", "A", 1⟩], ["T"], ["R"], ["L"], none, none, none⟩
    none (fun f h => by cases h)

/-- C3: on every timetable `allocate` can produce, no entry sits on
Thursday at period 1 or 7 (the CP-SAT model zeroes those variables and
the greedy fallback skips those slots), and the schedule-level Thursday
check accepts an entry at Thursday period 1 or 7 only when its session
type is CLUB. -/
theorem claim3_thursday_reserved :
    (∀ (inp : AllocInput) (sol : Option (VarKey → Bool)),
      SolverSound inp sol →
      (allocate inp sol).timetable.filter
        (fun e => e.day == "Thursday" && (e.period == 1 || e.period == 7))
        = []) ∧
    (∀ (period : Nat) (st : SessionType),
      (is_thursday_rule_valid period st DayOfWeek.THURSDAY).fst = true →
      (period = 1 ∨ period = 7) → st = SessionType.CLUB) := by
  constructor
  · intro inp sol hsound
    rcases allocate_sound_shape inp sol hsound with h | h
    · rw [h]
      rfl
    · rw [h]
      rw [List.filter_eq_nil_iff]
      intro e he
      have hth := greedy_fallback_no_thursday_reserved _ _ _ e he
      simp only [Bool.and_eq_true, Bool.or_eq_true, beq_iff_eq, not_and,
        not_or]
      intro hday
      constructor
      · intro h1
        exact hth ⟨hday, Or.inl h1⟩
      · intro h7
        exact hth ⟨hday, Or.inr h7⟩
  · intro period st hvalid hp
    cases st with
    | CLUB => rfl
    | LECTURE =>
        rcases hp with rfl | rfl <;> simp [is_thursday_rule_valid] at hvalid
    | TUTORIAL =>
        rcases hp with rfl | rfl <;> simp [is_thursday_rule_valid] at hvalid
    | LAB =>
        rcases hp with rfl | rfl <;> simp [is_thursday_rule_valid] at hvalid
    | SEMINAR =>
        rcases hp with rfl | rfl <;> simp [is_thursday_rule_valid] at hvalid
    | BREAK =>
        rcases hp with rfl | rfl <;> simp [is_thursday_rule_valid] at hvalid
    | EXTRACURRICULAR =>
        rcases hp with rfl | rfl <;> simp [is_thursday_rule_valid] at hvalid

/-- Witness for C3: a concrete fallback run plus the CLUB-at-P7 case of
the Thursday check. -/
theorem claim3_thursday_reserved_witness :
    (allocate ⟨[⟨"T", "L", "B", "1", "A", 1⟩], ["T"], ["R"], ["L"],
        none, none, none⟩ none).timetable.filter
      (fun e => e.day == "Thursday" && (e.period == 1 || e.period == 7))
      = [] ∧
    SessionType.CLUB = SessionType.CLUB :=
  ⟨claim3_thursday_reserved.1
    ⟨[⟨"T", "L", "B", "1", "A", 1⟩], ["T"], ["R"], ["L"], none, none, none⟩
    none (fun f h => by cases h),
   claim3_thursday_reserved.2 7 SessionType.CLUB (by decide) (Or.inr rfl)⟩

/-- C4: on every timetable `allocate` can produce — CP-SAT path or
greedy fallback — each faculty appears in at most one entry per day and
period. -/
theorem claim4_faculty_uniqueness (inp : AllocInput)
    (sol : Option (VarKey → Bool)) (hsound : SolverSound inp sol)
    (t d : String) (p : Nat) :
    ((allocate inp sol).timetable.filter
      (fun e => e.faculty == t && e.day == d && e.period == p)).length ≤ 1 := by
  rcases allocate_sound_shape inp sol hsound with h | h
  · rw [h]
    simp
  · rw [h]
    exact greedy_fallback_faculty_unique _ _ _ t d p

/-- Witness for C4 at a concrete fallback run. -/
theorem claim4_faculty_uniqueness_witness :
    ((allocate ⟨[⟨"T", "L", "B", "1", "A", 1⟩], ["T"], ["R"], ["L"],
        none, none, none⟩ none).timetable.filter
      (fun e => e.faculty == "T" && e.day == "Monday" && e.period == 3)).length
      ≤ 1 :=
  claim4_faculty_uniqueness
    ⟨[⟨"T", "L", "B", "1", "A", 1⟩], ["T"], ["R"], ["L"], none, none, none⟩
    none (fun f h => by cases h) "T" "Monday" 3

/-- Witness for C5: the Thursday start-period-6 rejection at a concrete
empty table. -/
theorem claim5_can_schedule_lab_witness :
    (can_schedule_lab [] 1 1 1 1 DayOfWeek.THURSDAY 6 2 none).fst = false :=
  claim5_can_schedule_lab_characterization.2 [] 1 1 1 1 none
